import Mathlib

/-!
Shallow embedding of the context-assembly and prompt-construction pipeline of
`backend/llm.py` (content normalization, history selection, prompt assembly,
suggestion parsing, and the per-turn orchestrator `generate_ai_response`),
together with theorems settling the specification claims about it.

External collaborators (Gemini generation/embedding calls, the HTTP fetch, the
similarity query against the store) are modelled as oracle inputs carrying the
outcome the Python code observes at each call site; all control flow around
those outcomes is translated from the source.
-/

namespace PluralEdtech

/-! ## Data model -/

/-- The payload of a successful image fetch: the resolved MIME type and the
response bytes (`{"mime_type": ..., "data": ...}` in `fetch_image_data`). -/
structure ImageData where
  mime_type : String
  data : List Nat
deriving DecidableEq

/-- One Gemini content part: either `{'text': s}` or `{'inline_data': d}`. -/
inductive Part where
  | text (s : String)
  | inline_data (d : ImageData)
deriving DecidableEq

/-- The value found under the `image_url` key of a raw content item:
whether that value is itself a dict, and its `url` entry (`none` = key
absent). -/
structure ImageUrlField where
  isDict : Bool
  url : Option String
deriving DecidableEq

/-- A raw content item that is a Python dict, restricted to the keys the code
inspects: `type`, `text` and `image_url` (`none` = key absent). -/
structure ItemDict where
  type : Option String
  text : Option String
  image_url : Option ImageUrlField
deriving DecidableEq

/-- One element of a list-shaped raw message content: a dict, or any other
Python value carried together with its `str()` rendering. -/
inductive RawItem where
  | dict (d : ItemDict)
  | other (strRepr : String)
deriving DecidableEq

/-- Raw message content as stored: a plain string, a list of items, or any
other Python value carried with its `str()` and `json.dumps()` renderings. -/
inductive RawContent where
  | str (s : String)
  | list (items : List RawItem)
  | other (strRepr : String) (jsonRepr : String)
deriving DecidableEq

/-- A stored message, restricted to the fields the pipeline reads. -/
structure Message where
  id : Nat
  role : String
  content : RawContent
deriving DecidableEq

/-- A role-tagged dialogue turn (`{'role': ..., 'parts': [...]}`). -/
structure Turn where
  role : String
  parts : List Part
deriving DecidableEq

/-- Embedding vectors are opaque to this pipeline. -/
abbrev Embedding := List Int

/-- Python truthiness of an optional string value: present and non-empty. -/
def truthy : Option String → Bool
  | none => false
  | some s => s ≠ ""

/-! ## Content helpers (`extractTextContent`, `format_history_for_gemini`) -/

/-- Embedding of `extractTextContent` (llm.py:194-200): a string is returned
as is; a list contributes the `text` entries (default `""`) of its dict items
tagged `text`, joined by newlines; anything else is `json.dumps`-rendered. -/
def extractTextContent : RawContent → String
  | .str s => s
  | .list items =>
      String.intercalate "\n" (items.filterMap fun i =>
        match i with
        | .dict d => if d.type = some "text" then some (d.text.getD "") else none
        | .other _ => none)
  | .other _ jsonRepr => jsonRepr

/-- Embedding of `format_history_for_gemini` (llm.py:86-91): each message with
non-empty extracted text becomes one turn with a single text part; messages
with empty extracted text are dropped. -/
def format_history_for_gemini (db_messages : List Message) : List Turn :=
  db_messages.filterMap fun msg =>
    let text_content := extractTextContent msg.content
    if text_content = "" then none else some ⟨msg.role, [Part.text text_content]⟩

/-! ## Embedding generation (`generate_embedding`) -/

/-- The characters Python's `str.isspace` recognises (ASCII range). -/
def pyWhitespace (c : Char) : Bool :=
  c.toNat = 32 || c.toNat = 9 || c.toNat = 10 || c.toNat = 13 || c.toNat = 11 || c.toNat = 12

/-- Python's `str.isspace`: non-empty and all characters whitespace. -/
def pyIsSpace (s : String) : Bool :=
  !(s = "") && s.toList.all pyWhitespace

/-- Embedding of `generate_embedding` (llm.py:51-57). `service` is the outcome
the embedding API call would deliver (`none` covering a raised exception or an
invalid result shape); empty or whitespace-only input short-circuits to
`none` before any call. -/
def generate_embedding (service : Option Embedding) (text_content : String) : Option Embedding :=
  if text_content = "" || pyIsSpace text_content then none
  else service

/-! ## Image fetch (`fetch_image_data`) -/

/-- An HTTP response as the code observes it: status, body bytes, and the
`content-type` header (`none` = absent). -/
structure HttpResponse where
  status : Nat
  content : List Nat
  content_type : Option String
deriving DecidableEq

/-- Python's `a or b` over optional strings: `a` unless it is `None` or
empty. -/
def pyOrStr : Option String → Option String → Option String
  | some s, b => if s = "" then b else some s
  | none, b => b

/-- Whether the second character list begins the first. -/
def charsStarts : List Char → List Char → Bool
  | _, [] => true
  | [], _ :: _ => false
  | a :: as, b :: bs => a = b && charsStarts as bs

/-- Python's `s.startswith(pat)`. -/
def pyStartsWith (s pat : String) : Bool :=
  charsStarts s.toList pat.toList

/-- Embedding of `fetch_image_data` (llm.py:60-68). `guess` is
`mimetypes.guess_type(url)[0]`; `resp = none` models a network-level exception
from the GET. A non-2xx status makes `raise_for_status` raise (caught,
yielding `None`); the MIME type is the URL guess, falling back to the
`content-type` header, and must start with `"image/"`. -/
def fetch_image_data (guess : Option String) (resp : Option HttpResponse) : Option ImageData :=
  match resp with
  | none => none
  | some r =>
      if ¬ (200 ≤ r.status ∧ r.status < 300) then none
      else
        match pyOrStr guess r.content_type with
        | none => none
        | some m => if m = "" ∨ ¬ (pyStartsWith m "image/" = true) then none else some ⟨m, r.content⟩

/-! ## Content normalization (`format_content_for_gemini`) -/

/-- Truthiness of the `image_url` guard: present, a dict, with a truthy
`url`. -/
def imageUrlOk : Option ImageUrlField → Bool
  | none => false
  | some f => f.isDict && truthy f.url

/-- The url extracted by `item['image_url']['url']` once the guard holds. -/
def imageUrlGet : Option ImageUrlField → String
  | none => ""
  | some f => f.url.getD ""

/-- Normalization of one list item (llm.py:74-82), with `fetchRes` the outcome
of `fetch_image_data` per URL: a dict tagged `text` with truthy text yields a
text part; a dict tagged `image_url` with a well-formed reference yields the
fetched inline data, or the placeholder text on fetch failure; any other dict
yields nothing; a non-dict item yields its `str()` rendering as text. -/
def normalizeItem (fetchRes : String → Option ImageData) : RawItem → List Part
  | .dict d =>
      if d.type = some "text" ∧ truthy d.text = true then
        [Part.text (d.text.getD "")]
      else if d.type = some "image_url" ∧ imageUrlOk d.image_url = true then
        match fetchRes (imageUrlGet d.image_url) with
        | some image_data => [Part.inline_data image_data]
        | none => [Part.text "[Image could not be loaded]"]
      else []
  | .other strRepr => [Part.text strRepr]

/-- Embedding of `format_content_for_gemini` (llm.py:70-84). -/
def format_content_for_gemini (fetchRes : String → Option ImageData) : RawContent → List Part
  | .str s => [Part.text s]
  | .list items => (items.map (normalizeItem fetchRes)).flatten
  | .other strRepr _ => [Part.text strRepr]

/-! ## Suggestion parsing (`generate_followup_suggestions`) -/

/-- JSON values, as delivered by `json.loads`. -/
inductive Json where
  | null
  | bool (b : Bool)
  | num (n : Int)
  | str (s : String)
  | arr (xs : List Json)
  | obj (fields : List (String × Json))

/-- `isinstance(j, str)` on a JSON value. -/
def Json.isStr : Json → Bool
  | .str _ => true
  | _ => false

/-- The string carried by a JSON string value (only used under `isStr`). -/
def Json.asStr : Json → String
  | .str s => s
  | _ => ""

/-- Embedding of `generate_followup_suggestions` (llm.py:94-103).
`parse_outcome` is the result the code observes from the suggestion call plus
`json.loads` on the (fence-stripped) response text: `none` models any raised
exception (API failure or a JSON parse error). A parsed value is accepted only
when it is an array all of whose elements are strings, capped to the first 4;
every other outcome yields the empty list. -/
def generate_followup_suggestions (parse_outcome : Option Json) : List String :=
  match parse_outcome with
  | none => []
  | some suggestions =>
      match suggestions with
      | .arr xs => if xs.all Json.isStr then (xs.map Json.asStr).take 4 else []
      | _ => []

/-! ## Context selection (llm.py:136-147) -/

/-- Python's `l[-n:]` for `n > 0`: the last `n` elements (all of them when the
list is shorter). -/
def takeLastPy {α : Type} (n : Nat) (l : List α) : List α :=
  l.drop (l.length - n)

/-- One iteration of the merge loops (llm.py:142-145): the state is the pair
(`combined_context_ids`, `context_messages_for_history`); a message is
appended, and its id recorded, only when its id is not yet in the set. -/
def merge_step : List Nat × List Message → Message → List Nat × List Message
  | (seen, acc), msg =>
      if msg.id ∈ seen then (seen, acc) else (seen ++ [msg.id], acc ++ [msg])

/-- The two merge loops (llm.py:141-145): relevant messages first, then recent
messages, deduplicating by id with first-seen order. -/
def merge_context (relevant_messages recent_messages : List Message) : List Message :=
  (recent_messages.foldl merge_step (relevant_messages.foldl merge_step ([], []))).2

/-- `MAX_CONTEXT_MSGS` (llm.py:146). -/
def MAX_CONTEXT_MSGS : Nat := 7

/-- The context-selection step (llm.py:140-147): take the last 3 messages of
the log, merge similarity results before them with id-deduplication, and keep
only the last `MAX_CONTEXT_MSGS` entries when the merge exceeds that bound. -/
def select_context (relevant_messages log : List Message) : List Message :=
  let recent_messages := takeLastPy 3 log
  let ctx := merge_context relevant_messages recent_messages
  if MAX_CONTEXT_MSGS < ctx.length then takeLastPy MAX_CONTEXT_MSGS ctx else ctx

/-- Lines 137-147 of llm.py: when no query embedding was obtained the
similarity search is skipped (`relevant_messages = []`), otherwise the
similarity service outcome `relevant_result` is used; then the context is
selected. -/
def history_select (query_embedding : Option Embedding) (relevant_result : List Message)
    (log : List Message) : List Message :=
  let relevant_messages := match query_embedding with
    | some _ => relevant_result
    | none => []
  select_context relevant_messages log

/-! ## Prompt assembly (llm.py:159-170) -/

/-- The fixed model acknowledgement turn of the preamble (llm.py:161). -/
def ACK_TURN : Turn := ⟨"model", [Part.text "Understood. I'm ready to guide the child."]⟩

/-- The filler model turn inserted when history ends on a user turn
(llm.py:169). -/
def OKAY_TURN : Turn := ⟨"model", [Part.text "Okay."]⟩

/-- The alternation walk (llm.py:165-168): turns whose role equals the last
accepted role are skipped (and logged); accepted turns update the last
role. -/
def walk_alternating (last_role : String) : List Turn → List Turn
  | [] => []
  | t :: rest =>
      if t.role = last_role then walk_alternating last_role rest
      else t :: walk_alternating t.role rest

/-- Line 164 of llm.py: drop the leading history turn when its role is
`"user"`. -/
def drop_leading_user : List Turn → List Turn
  | [] => []
  | t :: rest => if t.role = "user" then rest else t :: rest

/-- Lines 159-170 of llm.py after the leading-user drop: the two-turn
preamble, the alternation walk over the history starting from last role
`"model"`, the `"Okay."` filler when the sequence so far ends on a user turn,
and the final latest-user turn. -/
def assemble_core (system_prompt : String) (history : List Turn)
    (latest_user_parts : List Part) : List Turn :=
  let base := ⟨"user", [Part.text system_prompt]⟩ :: ACK_TURN :: walk_alternating "model" history
  let base2 := if (base.getLastD ⟨"", []⟩).role = "user" then base ++ [OKAY_TURN] else base
  base2 ++ [⟨"user", latest_user_parts⟩]

/-- Embedding of the whole prompt-assembly step (llm.py:159-170). -/
def assemble (system_prompt : String) (history : List Turn)
    (latest_user_parts : List Part) : List Turn :=
  assemble_core system_prompt (drop_leading_user history) latest_user_parts

/-! ## The orchestrator (`generate_ai_response`, llm.py:126-191) -/

/-- The outcomes of every external call `generate_ai_response` makes, in call
order. `none` models a raised exception at the corresponding call site. -/
structure Env where
  messages_db : List Message
  embed_service : Option Embedding
  relevant_result : List Message
  fetch_result : String → Option ImageData
  system_prompt : String
  gen_result : Option String
  suggestion_parse : Option Json
  response_embed_service : Option Embedding

/-- One `database.add_message` call as issued by the orchestrator. -/
structure PersistedMessage where
  role : String
  content : String
  embedding : Option Embedding
  suggestions : Option (List String)

/-- The observable outcome of one orchestrated turn: the messages persisted
through `database.add_message`, and whether the embedding and generation
calls were reached. -/
structure TurnResult where
  persisted : List PersistedMessage
  embedding_called : Bool
  generation_called : Bool

/-- `next((msg for msg in reversed(messages_db) if msg.role == 'user'), None)`
(llm.py:131). -/
def latest_user_message (msgs : List Message) : Option Message :=
  msgs.reverse.find? fun m => m.role = "user"

/-- The `p.get('text')` lookup on a part dict (llm.py:180). -/
def partTextGet : Part → Option String
  | .text s => some s
  | .inline_data _ => none

/-- Embedding of `generate_ai_response` (llm.py:126-191). The whole body runs
under a `try/except` that only logs, so every raised exception yields an
empty persisted list. The suggestion-history guard (llm.py:180) indexes
`history_for_suggestions[-1]`, which raises `IndexError` on an empty formatted
history; that exception is caught by the outer handler, so nothing is
persisted in that case even though generation succeeded. -/
def generate_ai_response (env : Env) : TurnResult :=
  match env.messages_db with
  | [] => ⟨[], false, false⟩
  | _ :: _ =>
      match latest_user_message env.messages_db with
      | none => ⟨[], false, false⟩
      | some latest =>
          let latest_user_content_text := extractTextContent latest.content
          let query_embedding := generate_embedding env.embed_service latest_user_content_text
          let context_messages := history_select query_embedding env.relevant_result env.messages_db
          let formatted_history := format_history_for_gemini context_messages
          let latest_user_parts := format_content_for_gemini env.fetch_result latest.content
          if latest_user_parts = [] then ⟨[], true, false⟩
          else
            match env.gen_result with
            | none => ⟨[], true, true⟩
            | some ai_response_text =>
                match formatted_history.getLast? with
                | none => ⟨[], true, true⟩
                | some last_turn =>
                    let _history_for_suggestions :=
                      if last_turn.parts.any (fun p => partTextGet p = some latest_user_content_text) then
                        formatted_history
                      else formatted_history ++ [⟨"user", [Part.text latest_user_content_text]⟩]
                    let suggestions := generate_followup_suggestions env.suggestion_parse
                    let ai_response_embedding :=
                      generate_embedding env.response_embed_service ai_response_text
                    let metadata := if suggestions.isEmpty then none else some suggestions
                    ⟨[⟨"model", ai_response_text, ai_response_embedding, metadata⟩], true, true⟩

/-! ## Specification-side definitions and concrete data for the claims -/

/-- Concrete messages used by the witnesses below. -/
def msg1 : Message := ⟨1, "user", .str "a"⟩

def msg2 : Message := ⟨2, "model", .str "b"⟩

def msg3 : Message := ⟨3, "user", .str "c"⟩

/-- A concrete 10-message log with distinct ids. -/
def logTen : List Message :=
  (List.range 10).map fun i => ⟨i, "user", .str "m"⟩

/-- Adjacent turns carry different roles. -/
def roleNe (a b : Turn) : Prop := ¬ a.role = b.role

/-- A formatted history starting with two consecutive user turns. -/
def histUserUser : List Turn := [⟨"user", [Part.text "A"]⟩, ⟨"user", [Part.text "B"]⟩]

/-- A concrete environment whose generation call fails. -/
def envGenFail : Env :=
  ⟨[msg1], none, [], fun _ => none, "S", none, none, none⟩

/-- A concrete non-empty log containing only model-role messages. -/
def envNoUser : Env :=
  ⟨[msg2], none, [], fun _ => none, "S", some "generated", none, none⟩

/-- A well-formed image-reference item
(`{'type': 'image_url', 'image_url': {'url': u}}`). -/
def imgItem (u : String) : RawItem := .dict ⟨some "image_url", none, some ⟨true, some u⟩⟩

/-- A dict-shaped list item matching neither recognised shape. -/
def mysteryItem : RawItem := .dict ⟨some "mystery", none, none⟩

/-- The environment exhibiting the C4 failure: the only message is a user
message whose content is a single image reference, so the latest-user text is
empty, every selected context message has empty extracted text and the
formatted history is empty; the image fetch fails (making the latest-turn
parts the non-empty placeholder), and the generation call succeeds. -/
def envSuggestionCrash : Env :=
  ⟨[⟨0, "user", .list [imgItem "http://x/y.png"]⟩],
   none, [], fun _ => none, "S", some "Hello there!",
   some (Json.arr [Json.str "Q1?"]), none⟩

/-! ## Dedup lemmas for the merge loops -/

/-- A direct recursive description of the deduplicating loop: keep the first
occurrence of each id not already in `avoid`, extending `avoid` as ids are
accepted. -/
def dedup_by_id (avoid : List Nat) : List Message → List Message
  | [] => []
  | m :: rest =>
      if m.id ∈ avoid then dedup_by_id avoid rest
      else m :: dedup_by_id (avoid ++ [m.id]) rest

theorem foldl_merge_step (l : List Message) : ∀ (seen : List Nat) (acc : List Message),
    l.foldl merge_step (seen, acc) =
      (seen ++ (dedup_by_id seen l).map Message.id, acc ++ dedup_by_id seen l) := by
  induction l with
  | nil => intro seen acc; simp [dedup_by_id]
  | cons m rest ih =>
      intro seen acc
      by_cases h : m.id ∈ seen
      · simp [merge_step, h, dedup_by_id, ih]
      · simp [merge_step, h, dedup_by_id, ih, List.append_assoc]

/-- The merge loops compute the id-deduplication of similarity results
followed by recency results. -/
theorem merge_context_eq (r s : List Message) :
    merge_context r s =
      dedup_by_id [] r ++ dedup_by_id ((dedup_by_id [] r).map Message.id) s := by
  unfold merge_context
  rw [foldl_merge_step r [] [], foldl_merge_step s]
  simp

theorem dedup_by_id_nodup_and_avoid (l : List Message) : ∀ avoid : List Nat,
    ((dedup_by_id avoid l).map Message.id).Nodup ∧
      ∀ i ∈ (dedup_by_id avoid l).map Message.id, i ∉ avoid := by
  induction l with
  | nil => intro avoid; simp [dedup_by_id]
  | cons m rest ih =>
      intro avoid
      by_cases h : m.id ∈ avoid
      · simpa [dedup_by_id, h] using ih avoid
      · have h2 := ih (avoid ++ [m.id])
        refine ⟨?_, ?_⟩
        · simp only [dedup_by_id, h, if_false, List.map_cons, List.nodup_cons]
          refine ⟨fun hmem => ?_, h2.1⟩
          have := h2.2 _ hmem
          simp at this
        · intro i hi
          simp only [dedup_by_id, h, if_false, List.map_cons, List.mem_cons] at hi
          rcases hi with rfl | hi
          · exact h
          · intro hia
            exact h2.2 i hi (by simp [hia])

theorem dedup_by_id_mem (l : List Message) : ∀ (avoid : List Nat) (i : Nat),
    i ∈ l.map Message.id → i ∉ avoid → i ∈ (dedup_by_id avoid l).map Message.id := by
  induction l with
  | nil => intro avoid i hi _; simp at hi
  | cons m rest ih =>
      intro avoid i hi hia
      simp only [List.map_cons, List.mem_cons] at hi
      by_cases h : m.id ∈ avoid
      · rcases hi with rfl | hi
        · exact absurd h hia
        · simpa [dedup_by_id, h] using ih avoid i hi hia
      · simp only [dedup_by_id, h, if_false, List.map_cons, List.mem_cons]
        rcases hi with rfl | hi
        · exact Or.inl rfl
        · by_cases hmi : i = m.id
          · exact Or.inl hmi
          · exact Or.inr (ih (avoid ++ [m.id]) i hi (by simp [hia, hmi]))

theorem dedup_by_id_sublist (l : List Message) : ∀ avoid : List Nat,
    List.Sublist (dedup_by_id avoid l) l := by
  induction l with
  | nil => intro avoid; simp [dedup_by_id]
  | cons m rest ih =>
      intro avoid
      by_cases h : m.id ∈ avoid
      · simpa [dedup_by_id, h] using (ih avoid).cons m
      · simpa [dedup_by_id, h] using (ih (avoid ++ [m.id])).cons₂ m

theorem dedup_by_id_eq_self (l : List Message) : ∀ avoid : List Nat,
    (l.map Message.id).Nodup → (∀ x ∈ l, x.id ∉ avoid) → dedup_by_id avoid l = l := by
  induction l with
  | nil => intro avoid _ _; simp [dedup_by_id]
  | cons m rest ih =>
      intro avoid hnd havoid
      have h : m.id ∉ avoid := havoid m (by simp)
      simp only [List.map_cons, List.nodup_cons] at hnd
      have hrest : ∀ x ∈ rest, x.id ∉ avoid ++ [m.id] := by
        intro x hx
        simp only [List.mem_append, List.mem_singleton]
        push_neg
        refine ⟨havoid x (by simp [hx]), fun he => ?_⟩
        exact hnd.1 (he ▸ List.mem_map_of_mem Message.id hx)
      simp [dedup_by_id, h, ih (avoid ++ [m.id]) hnd.2 hrest]

theorem merge_context_ids_nodup (r s : List Message) :
    ((merge_context r s).map Message.id).Nodup := by
  rw [merge_context_eq]
  rw [List.map_append, List.nodup_append]
  refine ⟨(dedup_by_id_nodup_and_avoid r []).1,
    (dedup_by_id_nodup_and_avoid s ((dedup_by_id [] r).map Message.id)).1, ?_⟩
  intro i hi hi2
  exact (dedup_by_id_nodup_and_avoid s ((dedup_by_id [] r).map Message.id)).2 i hi2 hi

/-- Counting an element in a duplicate-free list that contains it. -/
theorem countP_eq_one_of_nodup_mem (l : List Nat) (i : Nat)
    (hnd : l.Nodup) (hm : i ∈ l) : l.countP (fun x => decide (x = i)) = 1 := by
  induction l with
  | nil => simp at hm
  | cons a t ih =>
      simp only [List.nodup_cons] at hnd
      rcases List.mem_cons.1 hm with rfl | hm
      · rw [List.countP_cons]
        have h0 : t.countP (fun x => decide (x = i)) = 0 :=
          List.countP_eq_zero.2 (fun x hx => by
            simp only [decide_eq_true_eq]
            exact fun he => hnd.1 (he ▸ hx))
        simp [h0]
      · rw [List.countP_cons]
        have hne : a ≠ i := fun he => hnd.1 (he ▸ hm)
        simp [ih hnd.2 hm, hne]

/-! ## Claim C2 -/

/-- C2: For every conversation message log and every list of similarity-service
results, the context selection step returns a list of at most 7 messages
containing no two messages with the same id. -/
theorem C2_context_selection_bounded_and_deduped (relevant log : List Message) :
    (select_context relevant log).length ≤ 7 ∧
      ((select_context relevant log).map Message.id).Nodup := by
  have hnd := merge_context_ids_nodup relevant (takeLastPy 3 log)
  simp only [select_context]
  by_cases h : MAX_CONTEXT_MSGS < (merge_context relevant (takeLastPy 3 log)).length
  · simp only [h, if_true]
    refine ⟨?_, ?_⟩
    · simp only [takeLastPy, List.length_drop, MAX_CONTEXT_MSGS]
      omega
    · rw [takeLastPy, List.map_drop]
      exact hnd.sublist (List.drop_sublist _ _)
  · simp only [h, if_false]
    have := Nat.le_of_not_lt h
    exact ⟨by simpa [MAX_CONTEXT_MSGS] using this, hnd⟩

/-! ## Claim C5 -/

/-- C5: Context selection merges the similarity results followed by the
recency results preserving first-seen order and deduplicates by message id: a
message id appearing in both lists appears exactly once in the merged list,
inside the prefix derived from the similarity results (its id occurs in the
deduplicated similarity prefix and on no element of the recency suffix). -/
theorem C5_merge_order_and_dedup (r s : List Message) (i : Nat)
    (hr : i ∈ r.map Message.id) (_hs : i ∈ s.map Message.id) :
    merge_context r s =
        dedup_by_id [] r ++ dedup_by_id ((dedup_by_id [] r).map Message.id) s ∧
      (merge_context r s).countP (fun m => decide (m.id = i)) = 1 ∧
      i ∈ (dedup_by_id [] r).map Message.id ∧
      ∀ m ∈ dedup_by_id ((dedup_by_id [] r).map Message.id) s, ¬ m.id = i := by
  have hstruct := merge_context_eq r s
  have hiPrefix : i ∈ (dedup_by_id [] r).map Message.id :=
    dedup_by_id_mem r [] i hr (by simp)
  have hsuffix : ∀ m ∈ dedup_by_id ((dedup_by_id [] r).map Message.id) s, ¬ m.id = i := by
    intro m hm he
    have hmid : m.id ∈ (dedup_by_id ((dedup_by_id [] r).map Message.id) s).map Message.id :=
      List.mem_map_of_mem Message.id hm
    exact (dedup_by_id_nodup_and_avoid s ((dedup_by_id [] r).map Message.id)).2 m.id hmid
      (he ▸ hiPrefix)
  refine ⟨hstruct, ?_, hiPrefix, hsuffix⟩
  have hmem : i ∈ (merge_context r s).map Message.id := by
    rw [hstruct, List.map_append]
    exact List.mem_append_left _ hiPrefix
  have hcnt : (merge_context r s).countP (fun m => decide (m.id = i))
      = ((merge_context r s).map Message.id).countP (fun x => decide (x = i)) := by
    rw [List.countP_map]
    rfl
  rw [hcnt]
  exact countP_eq_one_of_nodup_mem _ i (merge_context_ids_nodup r s) hmem

/-- Witness for C5 at similarity results `[msg1, msg2]`, recency results
`[msg2, msg3]` and the shared id `2`. -/
theorem C5_merge_order_and_dedup_witness :
    (2 ∈ [msg1, msg2].map Message.id ∧ 2 ∈ [msg2, msg3].map Message.id) ∧
      (merge_context [msg1, msg2] [msg2, msg3] =
          dedup_by_id [] [msg1, msg2] ++
            dedup_by_id ((dedup_by_id [] [msg1, msg2]).map Message.id) [msg2, msg3] ∧
        (merge_context [msg1, msg2] [msg2, msg3]).countP (fun m => decide (m.id = 2)) = 1 ∧
        2 ∈ (dedup_by_id [] [msg1, msg2]).map Message.id ∧
        ∀ m ∈ dedup_by_id ((dedup_by_id [] [msg1, msg2]).map Message.id) [msg2, msg3],
          ¬ m.id = 2) :=
  ⟨⟨by decide, by decide⟩,
    C5_merge_order_and_dedup [msg1, msg2] [msg2, msg3] 2 (by decide) (by decide)⟩

/-! ## Claim C6 -/

/-- C6: When no query embedding is obtained (empty or whitespace latest-user
text, or embedding-service failure), similarity retrieval is skipped and the
selection degrades to recency only: for a log of 10 messages with distinct ids
the selected context is exactly the last 3 messages of the log, in their
original order. -/
theorem C6_no_embedding_recency_only (log relevant_result : List Message)
    (svc : Option Embedding) (text : String)
    (hlen : log.length = 10)
    (hnd : (log.map Message.id).Nodup)
    (hno : text = "" ∨ pyIsSpace text = true ∨ svc = none) :
    generate_embedding svc text = none ∧
      history_select (generate_embedding svc text) relevant_result log = takeLastPy 3 log := by
  have hge : generate_embedding svc text = none := by
    unfold generate_embedding
    rcases hno with h | h | h
    · simp [h]
    · simp [h]
    · simp [h]
  refine ⟨hge, ?_⟩
  rw [hge]
  have hrec : ((takeLastPy 3 log).map Message.id).Nodup := by
    rw [takeLastPy, List.map_drop]
    exact hnd.sublist (List.drop_sublist _ _)
  have hlen3 : (takeLastPy 3 log).length ≤ 3 := by
    simp only [takeLastPy, List.length_drop]
    omega
  simp only [history_select, select_context]
  rw [merge_context_eq]
  simp only [dedup_by_id, List.map_nil, List.nil_append]
  rw [dedup_by_id_eq_self _ [] hrec (by intro x _; simp)]
  rw [if_neg]
  simp only [MAX_CONTEXT_MSGS]
  omega

/-- Witness for C6 at the 10-message log, empty latest-user text and a failed
embedding service. -/
theorem C6_no_embedding_recency_only_witness :
    (logTen.length = 10 ∧ (logTen.map Message.id).Nodup ∧
        (("" : String) = "" ∨ pyIsSpace "" = true ∨ (none : Option Embedding) = none)) ∧
      (generate_embedding none "" = none ∧
        history_select (generate_embedding none "") [msg1] logTen = takeLastPy 3 logTen) :=
  ⟨⟨by decide, by decide, Or.inl rfl⟩,
    C6_no_embedding_recency_only logTen [msg1] none "" (by decide) (by decide) (Or.inl rfl)⟩

/-! ## Prompt-assembly lemmas -/

theorem walk_alternating_head_ne (l : List Turn) : ∀ (r : String) (t : Turn),
    (walk_alternating r l).head? = some t → ¬ t.role = r := by
  induction l with
  | nil => intro r t h; simp [walk_alternating] at h
  | cons a rest ih =>
      intro r t h
      by_cases ha : a.role = r
      · rw [walk_alternating, if_pos ha] at h
        exact ih r t h
      · rw [walk_alternating, if_neg ha] at h
        simp only [List.head?_cons, Option.some.injEq] at h
        rw [← h]
        exact ha

theorem walk_alternating_chain (l : List Turn) : ∀ r : String,
    (walk_alternating r l).Chain' roleNe := by
  induction l with
  | nil => intro r; simp [walk_alternating]
  | cons a rest ih =>
      intro r
      by_cases ha : a.role = r
      · rw [walk_alternating, if_pos ha]
        exact ih r
      · rw [walk_alternating, if_neg ha]
        refine List.chain'_cons'.2 ⟨?_, ih a.role⟩
        intro b hb
        have := walk_alternating_head_ne rest a.role b hb
        exact fun he => this he.symm

theorem walk_alternating_sublist (l : List Turn) : ∀ r : String,
    List.Sublist (walk_alternating r l) l := by
  induction l with
  | nil => intro r; simp [walk_alternating]
  | cons a rest ih =>
      intro r
      by_cases ha : a.role = r
      · rw [walk_alternating, if_pos ha]
        exact (ih r).cons a
      · rw [walk_alternating, if_neg ha]
        exact (ih a.role).cons₂ a

theorem drop_leading_user_sublist (l : List Turn) :
    List.Sublist (drop_leading_user l) l := by
  cases l with
  | nil => simp [drop_leading_user]
  | cons a rest =>
      by_cases ha : a.role = "user"
      · rw [drop_leading_user, if_pos ha]
        exact (List.Sublist.refl rest).cons a
      · rw [drop_leading_user, if_neg ha]

/-- The sequence built by `assemble_core` before the final two appends, with
its alternation and last-role facts. -/
theorem assemble_core_spec (system_prompt : String) (history : List Turn)
    (latest_user_parts : List Part) :
    (assemble_core system_prompt history latest_user_parts).Chain' roleNe ∧
      (assemble_core system_prompt history latest_user_parts).getLast?
        = some ⟨"user", latest_user_parts⟩ ∧
      ∀ t ∈ assemble_core system_prompt history latest_user_parts,
        t.role = "user" ∨ t.role = "model" ∨ t ∈ history := by
  set A : Turn := ⟨"user", [Part.text system_prompt]⟩ with hA
  set W := walk_alternating "model" history with hW
  set base := A :: ACK_TURN :: W with hbase
  have hbase_chain : base.Chain' roleNe := by
    refine List.chain'_cons'.2 ⟨?_, List.chain'_cons'.2 ⟨?_, walk_alternating_chain history "model"⟩⟩
    · intro b hb
      simp only [List.head?_cons, Option.mem_def, Option.some.injEq] at hb
      subst hb
      simp only [roleNe, hA, ACK_TURN]
      decide
    · intro b hb
      rw [Option.mem_def] at hb
      have := walk_alternating_head_ne history "model" b hb
      exact fun he => this he.symm
  have hbase_ne : base ≠ [] := by simp [hbase]
  obtain ⟨x, hx⟩ : ∃ x, base.getLast? = some x := by
    cases h : base.getLast? with
    | none => exact absurd (List.getLast?_eq_none_iff.1 h) hbase_ne
    | some x => exact ⟨x, rfl⟩
  have hxD : base.getLastD ⟨"", []⟩ = x := by
    rw [List.getLastD_eq_getLast?, hx]
    rfl
  have hbase_mem : ∀ t ∈ base, t.role = "user" ∨ t.role = "model" ∨ t ∈ history := by
    intro t ht
    rcases List.mem_cons.1 ht with rfl | ht
    · exact Or.inl rfl
    · rcases List.mem_cons.1 ht with rfl | ht
      · exact Or.inr (Or.inl rfl)
      · exact Or.inr (Or.inr ((walk_alternating_sublist history "model").mem ht))
  set base2 := if (base.getLastD ⟨"", []⟩).role = "user" then base ++ [OKAY_TURN] else base
    with hbase2
  have hbase2_chain : base2.Chain' roleNe := by
    rw [hbase2]
    by_cases hc : (base.getLastD ⟨"", []⟩).role = "user"
    · rw [if_pos hc]
      refine hbase_chain.append (by simp) ?_
      intro a ha b hb
      simp only [hx, Option.mem_def, Option.some.injEq] at ha
      simp only [List.head?_cons, Option.mem_def, Option.some.injEq] at hb
      rw [← ha, ← hb]
      rw [hxD] at hc
      simp only [roleNe, hc, OKAY_TURN]
      decide
    · rw [if_neg hc]
      exact hbase_chain
  have hbase2_last : ∀ y, base2.getLast? = some y → ¬ y.role = "user" := by
    intro y hy
    rw [hbase2] at hy
    by_cases hc : (base.getLastD ⟨"", []⟩).role = "user"
    · rw [if_pos hc, List.getLast?_concat] at hy
      cases hy
      decide
    · rw [if_neg hc, hx] at hy
      cases hy
      rw [hxD] at hc
      exact hc
  have hbase2_mem : ∀ t ∈ base2, t.role = "user" ∨ t.role = "model" ∨ t ∈ history := by
    intro t ht
    rw [hbase2] at ht
    by_cases hc : (base.getLastD ⟨"", []⟩).role = "user"
    · rw [if_pos hc] at ht
      rcases List.mem_append.1 ht with ht | ht
      · exact hbase_mem t ht
      · simp only [List.mem_singleton] at ht
        rw [ht]
        exact Or.inr (Or.inl rfl)
    · rw [if_neg hc] at ht
      exact hbase_mem t ht
  have hres : assemble_core system_prompt history latest_user_parts
      = base2 ++ [⟨"user", latest_user_parts⟩] := by
    simp only [assemble_core, hbase2, hbase, hW, hA]
  refine ⟨?_, ?_, ?_⟩
  · rw [hres]
    refine hbase2_chain.append (by simp) ?_
    intro a ha b hb
    rw [Option.mem_def] at ha
    simp only [List.head?_cons, Option.mem_def, Option.some.injEq] at hb
    rw [← hb]
    exact hbase2_last a ha
  · rw [hres, List.getLast?_concat]
  · rw [hres]
    intro t ht
    rcases List.mem_append.1 ht with ht | ht
    · exact hbase2_mem t ht
    · simp only [List.mem_singleton] at ht
      rw [ht]
      exact Or.inl rfl

/-! ## Claim C1 -/

/-- C1: For every system prompt, selected history list (of well-formed roles)
and non-empty latest-user block list, the dialogue sequence built by the
prompt assembly step strictly alternates between role `"user"` and role
`"model"` (no two adjacent turns share a role), and its final element has
role `"user"` and carries the latest user blocks. -/
theorem C1_assemble_alternates_ends_user (system_prompt : String) (history : List Turn)
    (latest_user_parts : List Part)
    (hroles : ∀ t ∈ history, t.role = "user" ∨ t.role = "model")
    (_hne : latest_user_parts ≠ []) :
    (assemble system_prompt history latest_user_parts).Chain' roleNe ∧
      (∀ t ∈ assemble system_prompt history latest_user_parts,
        t.role = "user" ∨ t.role = "model") ∧
      (assemble system_prompt history latest_user_parts).getLast?
        = some ⟨"user", latest_user_parts⟩ := by
  have h := assemble_core_spec system_prompt (drop_leading_user history) latest_user_parts
  refine ⟨h.1, ?_, h.2.1⟩
  intro t ht
  rcases h.2.2 t ht with hu | hm | hh
  · exact Or.inl hu
  · exact Or.inr hm
  · exact hroles t ((drop_leading_user_sublist history).mem hh)

/-- Witness for C1 at a one-turn history and a one-block latest turn. -/
theorem C1_assemble_alternates_ends_user_witness :
    ((∀ t ∈ [Turn.mk "model" [Part.text "hi"]], t.role = "user" ∨ t.role = "model") ∧
        [Part.text "L"] ≠ []) ∧
      ((assemble "S" [Turn.mk "model" [Part.text "hi"]] [Part.text "L"]).Chain' roleNe ∧
        (∀ t ∈ assemble "S" [Turn.mk "model" [Part.text "hi"]] [Part.text "L"],
          t.role = "user" ∨ t.role = "model") ∧
        (assemble "S" [Turn.mk "model" [Part.text "hi"]] [Part.text "L"]).getLast?
          = some ⟨"user", [Part.text "L"]⟩) :=
  ⟨⟨by decide, by decide⟩,
    C1_assemble_alternates_ends_user "S" [Turn.mk "model" [Part.text "hi"]] [Part.text "L"]
      (by decide) (by decide)⟩

/-! ## Claim C9 (corrected) -/

/-- Counterexample to C9 as stated: with history `[user "A", user "B"]` only
the first user turn is discarded, and the turn at index 2 — immediately after
the two-turn preamble — is the history turn `user "B"`, a user-role turn taken
from the front of the history. -/
theorem C9_counterexample :
    (assemble "S" histUserUser [Part.text "L"])[2]? = some ⟨"user", [Part.text "B"]⟩ ∧
      Turn.mk "user" [Part.text "B"] ∈ histUserUser ∧
      (Turn.mk "user" [Part.text "B"]).role = "user" := by
  decide

/-- C9 (amended): if the first turn of the formatted history has role
`"user"` it is discarded before the alternation walk — assembly proceeds
exactly as `assemble_core` on the remaining history; the original first
history turn therefore never follows the preamble, but a subsequent user-role
history turn still can. -/
theorem C9_leading_user_dropped (system_prompt : String) (t : Turn) (rest : List Turn)
    (latest_user_parts : List Part) (h : t.role = "user") :
    assemble system_prompt (t :: rest) latest_user_parts
      = assemble_core system_prompt rest latest_user_parts := by
  simp [assemble, drop_leading_user, h]

/-- Witness for the amended C9 at the two-user-turn history. -/
theorem C9_leading_user_dropped_witness :
    (Turn.mk "user" [Part.text "A"]).role = "user" ∧
      assemble "S" [⟨"user", [Part.text "A"]⟩, ⟨"user", [Part.text "B"]⟩] [Part.text "L"]
        = assemble_core "S" [⟨"user", [Part.text "B"]⟩] [Part.text "L"] :=
  ⟨by decide,
    C9_leading_user_dropped "S" ⟨"user", [Part.text "A"]⟩ [⟨"user", [Part.text "B"]⟩]
      [Part.text "L"] (by decide)⟩

/-! ## Claim C3 -/

/-- C3: If the generation call raises an exception during a turn, no new
message is persisted for that turn: the store's message-adding operation is
never invoked after the failure. -/
theorem C3_generation_failure_persists_nothing (env : Env) (h : env.gen_result = none) :
    (generate_ai_response env).persisted = [] := by
  unfold generate_ai_response
  cases henv : env.messages_db with
  | nil => rfl
  | cons m rest =>
      cases hl : latest_user_message (m :: rest) with
      | none => simp only [hl]
      | some latest =>
          simp only [hl, h]
          by_cases hp : format_content_for_gemini env.fetch_result latest.content = []
          · simp [hp]
          · simp [hp]

/-- Witness for C3 at `envGenFail`. -/
theorem C3_generation_failure_persists_nothing_witness :
    envGenFail.gen_result = none ∧ (generate_ai_response envGenFail).persisted = [] :=
  ⟨rfl, C3_generation_failure_persists_nothing envGenFail rfl⟩

/-! ## Claim C10 -/

/-- C10: If the conversation's message log is non-empty but contains no
message with role `"user"`, the orchestrator aborts the turn before computing
embeddings, calling generation, or persisting anything. -/
theorem C10_no_user_message_aborts (env : Env)
    (hne : env.messages_db ≠ [])
    (hnouser : ∀ m ∈ env.messages_db, ¬ m.role = "user") :
    (generate_ai_response env).persisted = [] ∧
      (generate_ai_response env).embedding_called = false ∧
      (generate_ai_response env).generation_called = false := by
  have hfind : latest_user_message env.messages_db = none := by
    unfold latest_user_message
    rw [List.find?_eq_none]
    intro m hm
    simp only [decide_eq_true_eq]
    exact hnouser m (List.mem_reverse.1 hm)
  unfold generate_ai_response
  cases henv : env.messages_db with
  | nil => exact absurd henv hne
  | cons a rest =>
      rw [henv] at hfind
      rw [hfind]
      exact ⟨rfl, rfl, rfl⟩

/-- Witness for C10 at `envNoUser`. -/
theorem C10_no_user_message_aborts_witness :
    (envNoUser.messages_db ≠ [] ∧ ∀ m ∈ envNoUser.messages_db, ¬ m.role = "user") ∧
      ((generate_ai_response envNoUser).persisted = [] ∧
        (generate_ai_response envNoUser).embedding_called = false ∧
        (generate_ai_response envNoUser).generation_called = false) :=
  ⟨⟨by decide, by decide⟩,
    C10_no_user_message_aborts envNoUser (by decide) (by decide)⟩

/-! ## Claim C7 -/

/-- C7: Normalizing an image-reference item whose fetch fails (network error,
non-2xx status, or a resolved MIME type — URL guess first, then the
`content-type` header — that does not start with `"image/"`) never raises (the
normalizer is a total function) and yields a Text block reading exactly
`"[Image could not be loaded]"`; on success it yields an InlineImage block
with the resolved MIME type and the fetched bytes. -/
theorem C7_image_fetch_normalization (guess : Option String) (resp : Option HttpResponse)
    (u : String) (hu : ¬ u = "") :
    (normalizeItem (fun _ => fetch_image_data guess resp) (imgItem u)
        = match fetch_image_data guess resp with
          | some image_data => [Part.inline_data image_data]
          | none => [Part.text "[Image could not be loaded]"]) ∧
      (resp = none → fetch_image_data guess resp = none) ∧
      (∀ r, resp = some r → ¬ (200 ≤ r.status ∧ r.status < 300) →
        fetch_image_data guess resp = none) ∧
      (∀ r, resp = some r → pyOrStr guess r.content_type = none →
        fetch_image_data guess resp = none) ∧
      (∀ r m, resp = some r → pyOrStr guess r.content_type = some m →
        ¬ pyStartsWith m "image/" = true → fetch_image_data guess resp = none) ∧
      (∀ r d, resp = some r → fetch_image_data guess resp = some d →
        some d.mime_type = pyOrStr guess r.content_type ∧ d.data = r.content ∧
          pyStartsWith d.mime_type "image/" = true ∧ 200 ≤ r.status ∧ r.status < 300) := by
  refine ⟨?_, ?_, ?_, ?_, ?_, ?_⟩
  · simp [normalizeItem, imgItem, imageUrlOk, imageUrlGet, truthy, hu]
  · intro h
    rw [h]
    rfl
  · intro r hr hs
    subst hr
    simp only [fetch_image_data]
    rw [if_pos hs]
  · intro r hr hpy
    subst hr
    simp only [fetch_image_data, hpy]
    split
    · rfl
    · rfl
  · intro r m hr hpy hm
    subst hr
    simp only [fetch_image_data, hpy]
    split
    · rfl
    · rw [if_pos (Or.inr hm)]
  · intro r d hr hd
    subst hr
    simp only [fetch_image_data] at hd
    by_cases hs : 200 ≤ r.status ∧ r.status < 300
    · rw [if_neg (not_not_intro hs)] at hd
      cases hpy : pyOrStr guess r.content_type with
      | none =>
          simp only [hpy] at hd
          cases hd
      | some m =>
          simp only [hpy] at hd
          by_cases hm : m = "" ∨ ¬ (pyStartsWith m "image/" = true)
          · rw [if_pos hm] at hd
            simp at hd
          · rw [if_neg hm] at hd
            push_neg at hm
            simp only [Option.some.injEq] at hd
            subst hd
            exact ⟨rfl, rfl, hm.2, hs.1, hs.2⟩
    · rw [if_pos hs] at hd
      simp at hd

/-- Witness for C7: a successful PNG fetch and a failed fetch, at concrete
inputs. -/
theorem C7_image_fetch_normalization_witness :
    ¬ ("http://x/a.png" : String) = "" ∧
      normalizeItem
          (fun _ => fetch_image_data (some "image/png") (some ⟨200, [7, 7], none⟩))
          (imgItem "http://x/a.png")
        = [Part.inline_data ⟨"image/png", [7, 7]⟩] ∧
      normalizeItem (fun _ => fetch_image_data (some "image/png") none)
          (imgItem "http://x/a.png")
        = [Part.text "[Image could not be loaded]"] := by
  refine ⟨by decide, ?_, ?_⟩
  · have h := C7_image_fetch_normalization (some "image/png") (some ⟨200, [7, 7], none⟩)
      "http://x/a.png" (by decide)
    rw [h.1]
    decide
  · have h := C7_image_fetch_normalization (some "image/png") none "http://x/a.png" (by decide)
    rw [h.1]
    decide

/-! ## Claim C8 (corrected) -/

/-- Counterexample to C8 as stated: a dict item that is neither a text item
with non-empty text nor a well-formed image-reference item is silently
dropped — normalizing a one-item list containing it yields no blocks at all
instead of a stringified Text block. -/
theorem C8_counterexample :
    format_content_for_gemini (fun _ => none) (.list [mysteryItem]) = [] := by
  decide

/-- C8 (amended): when normalizing a list-shaped raw content, every item is
normalized in place (the outputs are concatenated in order); a non-dict item
is stringified into a Text block, but a dict item that is neither a text item
with non-empty text nor a well-formed image-reference item yields no block at
all — such dict items are silently dropped by the fallback, which only covers
non-dict items. -/
theorem C8_fallback_stringifies_only_non_dicts (fetchRes : String → Option ImageData)
    (items : List RawItem) :
    format_content_for_gemini fetchRes (.list items)
        = (items.map (normalizeItem fetchRes)).flatten ∧
      (∀ s, normalizeItem fetchRes (.other s) = [Part.text s]) ∧
      ∀ d : ItemDict, ¬ (d.type = some "text" ∧ truthy d.text = true) →
        ¬ (d.type = some "image_url" ∧ imageUrlOk d.image_url = true) →
        normalizeItem fetchRes (.dict d) = [] := by
  refine ⟨rfl, fun s => rfl, ?_⟩
  intro d h1 h2
  simp only [normalizeItem]
  rw [if_neg h1, if_neg h2]

/-- Witness for the amended C8 at the mystery dict item. -/
theorem C8_fallback_stringifies_only_non_dicts_witness :
    (¬ ((some "mystery" : Option String) = some "text" ∧ truthy none = true) ∧
        ¬ ((some "mystery" : Option String) = some "image_url" ∧ imageUrlOk none = true)) ∧
      normalizeItem (fun _ => none) (.dict ⟨some "mystery", none, none⟩) = [] :=
  ⟨⟨by decide, by decide⟩,
    (C8_fallback_stringifies_only_non_dicts (fun _ => none) []).2.2
      ⟨some "mystery", none, none⟩ (by decide) (by decide)⟩

/-! ## Claim C4 (code bug) -/

/-- C4 (code bug): at `envSuggestionCrash` the generation call succeeds and
the latest-turn blocks are non-empty, yet the suggestion step fails the turn:
the suggestion-history guard evaluates `history_for_suggestions[-1]` on an
empty formatted history (llm.py:180), the resulting `IndexError` is swallowed
by the outer handler, and the newly generated model message is never
persisted — contradicting the claim that the suggestion step never fails the
turn. -/
theorem C4_suggestion_step_fails_turn :
    envSuggestionCrash.gen_result = some "Hello there!" ∧
      format_content_for_gemini envSuggestionCrash.fetch_result
          (RawContent.list [imgItem "http://x/y.png"]) ≠ [] ∧
      (generate_ai_response envSuggestionCrash).generation_called = true ∧
      (generate_ai_response envSuggestionCrash).persisted = [] := by
  exact ⟨rfl, by decide, rfl, rfl⟩

end PluralEdtech
